import Mathlib

/-!
Verification of the pixel-map computation of `stcal.alignment.resample_utils`
(`calc_pixmap`, src/src/stcal/alignment/resample_utils.py).

Shallow embedding conventions:
* Real/floating-point coordinates are modelled as rationals (`ℚ`); pixel
  centers are exact integers, so every statement of the spec holds exactly.
* A Python `tuple`-or-`None` shape argument is modelled as `Option (List ℤ)`;
  Python truthiness of that value is `pyTruthy`.
* Fallible computation is modelled with `Except Err`; the `Err` constructors
  mirror the Python exception classes that can arise at the call sites.
* NumPy arrays are modelled as nested lists: a 2-D array is a
  `List (List ℚ)` (rows of columns), and the (rows, cols, 2) result of
  `np.dstack` is a `List (List (ℚ × ℚ))` with the pair as the trailing axis.

`calc_pixmap` itself is translated from the source.  Its collaborators
`stcal.alignment.util.wcs_bbox_from_shape` and `stcal.alignment.util.reproject`
are code of this repository that is not under src/, and
`gwcs.wcstools.grid_from_bounding_box` is an external library routine; all
three are modelled from the spec's description of their interfaces, as noted
in their doc comments.
-/

set_option autoImplicit false

namespace Stcal

/-- Errors that the modelled computation can signal.  `typeError` and
`indexError` mirror the incidental Python exceptions raised at the modelled
call sites (subscripting `None`, indexing a too-short tuple).  `missingExtent`
is the distinct missing-extent signal that spec §7 demands
(`MissingExtentError`); it is part of the error vocabulary so that statements
can distinguish it from incidental collaborator errors, and the code model
never produces it. -/
inductive Err where
  | typeError (msg : String) : Err
  | indexError (msg : String) : Err
  | missingExtent : Err
deriving Repr, DecidableEq

/-- A coordinate transform (WCS object), per spec §3: an opaque object with a
forward pixel→world mapping, an inverse world→pixel mapping, and an optional
declared pixel-array extent (`pixel_shape`, a tuple of integers or `None`). -/
structure Wcs where
  pixel_shape : Option (List ℤ)
  to_world : ℚ × ℚ → ℚ × ℚ
  to_pixel : ℚ × ℚ → ℚ × ℚ

/-- A bounding box: a pair of (min, max) ranges, the x-axis range first and
the y-axis range second (the order consumed by the grid generator). -/
abbrev BBox : Type := (ℚ × ℚ) × (ℚ × ℚ)

/-- The (rows, columns, 2) pixel map: rows of columns of (x, y) pairs. -/
abbrev Pixmap : Type := List (List (ℚ × ℚ))

/-- Python truthiness of the `shape` argument: `None` and the empty tuple are
falsy, every non-empty tuple is truthy. -/
def pyTruthy : Option (List ℤ) → Bool
  | none => false
  | some l => !l.isEmpty

/-- Python negative indexing `l[-k]` (for `k ≥ 1`): the `k`-th entry from the
end of the tuple, with an `IndexError` when the tuple is too short. -/
def pyGetNeg (l : List ℤ) (k : ℕ) : Except Err ℤ :=
  if 1 ≤ k ∧ k ≤ l.length then
    match l.get? (l.length - k) with
    | some v => Except.ok v
    | none => Except.error (Err.indexError "tuple index out of range")
  else
    Except.error (Err.indexError "tuple index out of range")

/-- Modelled from the spec: the bounding-box derivation routine
`stcal.alignment.util.wcs_bbox_from_shape`, code of this repository that is
not under src/.  Spec §1/§3/§6: given a pixel-array shape `(height, width)`
or equivalent — the width is the last entry of the tuple and the height the
one before it — it returns one (min, max) range per axis covering `-0.5` to
`extent - 0.5` under the half-pixel convention.  A `None` shape is outside
the routine's specified domain; subscripting it raises the incidental Python
`TypeError`, and a too-short tuple raises `IndexError` (there is no distinct
missing-extent signal in the code path). -/
def wcs_bbox_from_shape (shape : Option (List ℤ)) : Except Err BBox :=
  match shape with
  | none => Except.error (Err.typeError "NoneType object is not subscriptable")
  | some l => do
      let w ← pyGetNeg l 1
      let h ← pyGetNeg l 2
      Except.ok (((-1 : ℚ)/2, (w : ℚ) - 1/2), ((-1 : ℚ)/2, (h : ℚ) - 1/2))

/-- The integers `n` with `lo ≤ n ≤ hi`, in increasing order. -/
def intsIn (lo hi : ℚ) : List ℤ :=
  (List.range (⌊hi⌋ - ⌈lo⌉ + 1).toNat).map (fun (k : ℕ) => ⌈lo⌉ + (k : ℤ))

/-- Modelled from the spec: the external grid generator
`gwcs.wcstools.grid_from_bounding_box` (spec §1/§6): given a bounding box it
returns two 2-D coordinate arrays (x-grid, y-grid), each shaped
(rows, columns), spanning the integer pixel centers covered by the box. -/
def grid_from_bounding_box (bb : BBox) : List (List ℚ) × List (List ℚ) :=
  let xs := intsIn bb.1.1 bb.1.2
  let ys := intsIn bb.2.1 bb.2.2
  (ys.map (fun _ => xs.map (fun (x : ℤ) => (x : ℚ))),
   ys.map (fun (y : ℤ) => xs.map (fun _ => (y : ℚ))))

/-- Modelled from the spec: the reprojection collaborator
`stcal.alignment.util.reproject`, code of this repository that is not under
src/.  Spec §1/§6: given the input and output transforms it returns a callable
that maps output-frame pixel coordinates to input-frame pixel coordinates —
the composition of the output transform's forward (pixel→world) mapping with
the input transform's inverse (world→pixel) mapping. -/
def reproject (t_in t_out : Wcs) : ℚ × ℚ → ℚ × ℚ :=
  fun p => t_in.to_pixel (t_out.to_world p)

/-- Element-wise application of a two-argument function over two parallel
2-D arrays (the vectorized evaluation of spec §4.1 step 4). -/
def mapGrid2 (f : ℚ → ℚ → ℚ) (xg yg : List (List ℚ)) : List (List ℚ) :=
  List.zipWith (fun xr yr => List.zipWith f xr yr) xg yg

/-- The reprojection callable evaluated vectorized over the whole grid:
two result arrays (mapped-x, mapped-y) of the same shape as the grid. -/
def reproject_grids (t_in t_out : Wcs) (xg yg : List (List ℚ)) :
    List (List ℚ) × List (List ℚ) :=
  (mapGrid2 (fun x y => (reproject t_in t_out (x, y)).1) xg yg,
   mapGrid2 (fun x y => (reproject t_in t_out (x, y)).2) xg yg)

/-- `np.dstack` on two equal-shaped 2-D arrays: stacks them along a new
trailing axis of length 2, modelled as pairing the elements. -/
def dstack (a b : List (List ℚ)) : Pixmap :=
  List.zipWith (fun ra rb => List.zipWith Prod.mk ra rb) a b

/-- The bounding-box resolution step of `calc_pixmap`
(resample_utils.py lines 27-32): `if shape: bb = util.wcs_bbox_from_shape(shape)
else: bb = util.wcs_bbox_from_shape(in_wcs.pixel_shape)`.  The branch is
Python truthiness of `shape`. -/
def bboxOf (in_wcs : Wcs) (shape : Option (List ℤ)) : Except Err BBox :=
  if pyTruthy shape then wcs_bbox_from_shape shape
  else wcs_bbox_from_shape in_wcs.pixel_shape

/-- Translated from the source (resample_utils.py lines 10-36): resolve the
bounding box from `shape` or from `in_wcs.pixel_shape`, generate the grid,
evaluate the reprojection callable on the grid arrays, and `dstack` the two
results.  Collaborator errors propagate unmodified; the debug logging of the
source is observability only and is not modelled. -/
def calc_pixmap (in_wcs out_wcs : Wcs) (shape : Option (List ℤ)) :
    Except Err Pixmap :=
  match bboxOf in_wcs shape with
  | Except.error e => Except.error e
  | Except.ok bb =>
      let grid := grid_from_bounding_box bb
      let res := reproject_grids in_wcs out_wcs grid.1 grid.2
      Except.ok (dstack res.1 res.2)

/-- Element access into a pixel-map result: the (x, y) pair stored at row
`r`, column `c`, or `none` when the call failed or the index is out of
range. -/
def pixmapGet (e : Except Err Pixmap) (r c : ℕ) : Option (ℚ × ℚ) :=
  (e.toOption.bind (fun pm => pm[r]?)).bind (fun row => row[c]?)

/-! ### Evaluation lemmas for the embedded definitions -/

lemma zipWith_pair (f : ℚ → ℚ → ℚ × ℚ) :
    ∀ a b : List ℚ,
      List.zipWith Prod.mk (List.zipWith (fun x y => (f x y).1) a b)
        (List.zipWith (fun x y => (f x y).2) a b) = List.zipWith f a b
  | [], _ => rfl
  | _ :: _, [] => rfl
  | x :: a, y :: b => by
      simp only [List.zipWith]
      exact congrArg _ (zipWith_pair f a b)

lemma dstack_mapGrid2 (f : ℚ → ℚ → ℚ × ℚ) :
    ∀ xg yg : List (List ℚ),
      dstack (mapGrid2 (fun x y => (f x y).1) xg yg)
          (mapGrid2 (fun x y => (f x y).2) xg yg)
        = List.zipWith (fun xr yr => List.zipWith f xr yr) xg yg
  | [], _ => rfl
  | _ :: _, [] => rfl
  | xr :: xg, yr :: yg => by
      simp only [dstack, mapGrid2, List.zipWith]
      refine congrArg₂ _ (zipWith_pair f xr yr) ?_
      exact dstack_mapGrid2 f xg yg

lemma zipWith_map_same {α β γ δ : Type} (g : β → γ → δ) (u : α → β) (v : α → γ) :
    ∀ l : List α, List.zipWith g (l.map u) (l.map v) = l.map (fun a => g (u a) (v a))
  | [] => rfl
  | a :: l => by
      simp only [List.map, List.zipWith]
      exact congrArg _ (zipWith_map_same g u v l)

/-- Evaluating any element-wise function over the two grid arrays produced by
`grid_from_bounding_box` is the same as mapping it over the integer centers
row by row. -/
lemma grid_zipWith_eval (bb : BBox) (f : ℚ → ℚ → ℚ × ℚ) :
    List.zipWith (fun xr yr => List.zipWith f xr yr)
        (grid_from_bounding_box bb).1 (grid_from_bounding_box bb).2
      = (intsIn bb.2.1 bb.2.2).map (fun (y : ℤ) =>
          (intsIn bb.1.1 bb.1.2).map (fun (x : ℤ) => f (x : ℚ) (y : ℚ))) := by
  simp only [grid_from_bounding_box]
  rw [zipWith_map_same]
  refine List.map_congr_left (fun y _ => ?_)
  exact zipWith_map_same _ _ _ (intsIn bb.1.1 bb.1.2)

/-- A successful `calc_pixmap` call is exactly the reprojection callable
evaluated at every integer pixel center of the resolved bounding box. -/
lemma calc_pixmap_eval (iw ow : Wcs) (s : Option (List ℤ)) (bb : BBox)
    (h : bboxOf iw s = Except.ok bb) :
    calc_pixmap iw ow s =
      Except.ok ((intsIn bb.2.1 bb.2.2).map (fun (y : ℤ) =>
        (intsIn bb.1.1 bb.1.2).map (fun (x : ℤ) => reproject iw ow ((x : ℚ), (y : ℚ))))) := by
  unfold calc_pixmap
  rw [h]
  show Except.ok
      (dstack
        (mapGrid2 (fun x y => (reproject iw ow (x, y)).1)
          (grid_from_bounding_box bb).1 (grid_from_bounding_box bb).2)
        (mapGrid2 (fun x y => (reproject iw ow (x, y)).2)
          (grid_from_bounding_box bb).1 (grid_from_bounding_box bb).2)) = _
  rw [dstack_mapGrid2 (fun x y => reproject iw ow (x, y)),
    grid_zipWith_eval bb (fun x y => reproject iw ow (x, y))]

lemma ceil_neg_half : (⌈(-1 : ℚ)/2⌉ : ℤ) = 0 := by norm_num

lemma floor_cast_sub_half (w : ℤ) : (⌊(w : ℚ) - 1/2⌋ : ℤ) = w - 1 := by
  have h : (w : ℚ) - 1/2 = (w : ℚ) + (-1/2 : ℚ) := by ring
  rw [h, Int.floor_int_add]
  norm_num
  omega

/-- The integer centers covered by a half-open pixel range `[-0.5, w - 0.5]`
are exactly `0, 1, …, w - 1`. -/
lemma intsIn_half (w : ℤ) :
    intsIn ((-1 : ℚ)/2) ((w : ℚ) - 1/2) = (List.range w.toNat).map (fun (k : ℕ) => (k : ℤ)) := by
  unfold intsIn
  rw [ceil_neg_half, floor_cast_sub_half]
  have h : (w - 1 - 0 + 1).toNat = w.toNat := by omega
  rw [h]
  refine List.map_congr_left (fun k _ => ?_)
  omega

/-- The bounding box resolved for an explicit two-entry shape `[h, w]`. -/
lemma bboxOf_pair (iw : Wcs) (h w : ℤ) :
    bboxOf iw (some [h, w]) =
      Except.ok (((-1 : ℚ)/2, (w : ℚ) - 1/2), ((-1 : ℚ)/2, (h : ℚ) - 1/2)) := rfl

/-- Element-level evaluation of `calc_pixmap` for an explicit shape: row `r`,
column `c` holds the reprojection of the grid point `(x = c, y = r)`. -/
lemma pixmapGet_eval (iw ow : Wcs) (h w : ℤ) (r c : ℕ)
    (hr : r < h.toNat) (hc : c < w.toNat) :
    pixmapGet (calc_pixmap iw ow (some [h, w])) r c =
      some (reproject iw ow ((c : ℚ), (r : ℚ))) := by
  rw [calc_pixmap_eval iw ow (some [h, w]) _ (bboxOf_pair iw h w)]
  simp only [pixmapGet, Except.toOption, intsIn_half, List.map_map, Option.some_bind]
  rw [List.getElem?_map, List.getElem?_range hr]
  simp only [Option.map_some', Option.some_bind, Function.comp]
  rw [List.getElem?_map, List.getElem?_range hc]
  simp only [Option.map_some', Function.comp, Int.cast_natCast]

/-! ### Concrete transforms used by witnesses and the counterexample -/

/-- An identity transform declaring pixel extent (2 rows, 3 columns). -/
def wcsA : Wcs :=
  { pixel_shape := some [2, 3], to_world := fun p => p, to_pixel := fun p => p }

/-- A transform exposing no declared pixel extent. -/
def wcsNoExtent : Wcs :=
  { pixel_shape := none, to_world := fun p => p, to_pixel := fun p => p }

/-- A scaling transform declaring pixel extent (5, 7); its world frame is the
pixel frame magnified by two. -/
def wcsB : Wcs :=
  { pixel_shape := some [5, 7],
    to_world := fun p => (2 * p.1, 2 * p.2),
    to_pixel := fun p => (p.1 / 2, p.2 / 2) }

/-! ### Claims -/

/-- C1 counterexample: calling with `shape = None` and an input transform
exposing no declared pixel extent does not raise the distinct missing-extent
signal of spec §7; it surfaces the incidental subscript `TypeError` of the
bounding-box collaborator instead. -/
theorem c1_counterexample :
    calc_pixmap wcsNoExtent wcsA none ≠ Except.error Err.missingExtent ∧
      calc_pixmap wcsNoExtent wcsA none =
        Except.error (Err.typeError "NoneType object is not subscriptable") := by
  constructor
  · intro h
    exact Err.noConfusion (Except.error.inj h)
  · rfl

/-- C1 (amended): calling with `shape = None` and an input transform exposing
no declared pixel extent raises an error — the bounding-box collaborator's
subscript `TypeError`, propagated unmodified — rather than returning a
default or empty map; the function itself performs no presence check and
signals no distinct missing-extent error. -/
theorem c1_missing_extent_collaborator_error (iw ow : Wcs)
    (hps : iw.pixel_shape = none) :
    calc_pixmap iw ow none =
      Except.error (Err.typeError "NoneType object is not subscriptable") := by
  have h1 : bboxOf iw none =
      Except.error (Err.typeError "NoneType object is not subscriptable") := by
    unfold bboxOf
    rw [hps]
    rfl
  unfold calc_pixmap
  rw [h1]

/-- C1 witness for the amended claim, at a concrete extent-less transform. -/
theorem c1_missing_extent_witness :
    calc_pixmap wcsNoExtent wcsA none =
      Except.error (Err.typeError "NoneType object is not subscriptable") :=
  c1_missing_extent_collaborator_error wcsNoExtent wcsA rfl

/-- C2: on a successful call with shape `(h, w)`, element `[r, c]` of the
returned map is the coordinate obtained by sending the output-frame pixel
`(x = c, y = r)` through the reprojection composition — the output
transform's forward map followed by the input transform's inverse map — that
is, the (x, y) coordinate in the input frame corresponding to output-frame
pixel `(r, c)`. -/
theorem c2_element_is_input_frame_coordinate (iw ow : Wcs) (h w : ℤ)
    (r c : ℕ) (hr : r < h.toNat) (hc : c < w.toNat) :
    pixmapGet (calc_pixmap iw ow (some [h, w])) r c =
      some (iw.to_pixel (ow.to_world ((c : ℚ), (r : ℚ)))) :=
  pixmapGet_eval iw ow h w r c hr hc

/-- C2 witness at a scaling input transform and identity output transform. -/
theorem c2_witness :
    pixmapGet (calc_pixmap wcsB wcsA (some [2, 3])) 1 2 =
      some (wcsB.to_pixel (wcsA.to_world (((2 : ℕ) : ℚ), ((1 : ℕ) : ℚ)))) :=
  c2_element_is_input_frame_coordinate wcsB wcsA 2 3 1 2 (by decide) (by decide)

/-- C3: for every positive shape `(r, c)` the call succeeds with a newly
built map of exactly `r` rows, each of `c` columns of coordinate pairs. -/
theorem c3_shape_fidelity (iw ow : Wcs) (r c : ℤ) (hr : 0 < r) (hc : 0 < c) :
    ∃ pm : Pixmap, calc_pixmap iw ow (some [r, c]) = Except.ok pm ∧
      pm.length = r.toNat ∧ ∀ row ∈ pm, row.length = c.toNat := by
  refine ⟨_, calc_pixmap_eval iw ow (some [r, c]) _ (bboxOf_pair iw r c), ?_, ?_⟩
  · show (List.map _ (intsIn ((-1 : ℚ)/2) ((r : ℚ) - 1/2))).length = r.toNat
    rw [List.length_map, intsIn_half, List.length_map, List.length_range]
  · intro row hrow
    obtain ⟨y, _, rfl⟩ := List.mem_map.mp hrow
    show (List.map _ (intsIn ((-1 : ℚ)/2) ((c : ℚ) - 1/2))).length = c.toNat
    rw [List.length_map, intsIn_half, List.length_map, List.length_range]

/-- C3 witness at shape (2, 3). -/
theorem c3_witness :
    ∃ pm : Pixmap, calc_pixmap wcsA wcsNoExtent (some [2, 3]) = Except.ok pm ∧
      pm.length = (2 : ℤ).toNat ∧ ∀ row ∈ pm, row.length = (3 : ℤ).toNat :=
  c3_shape_fidelity wcsA wcsNoExtent 2 3 (by decide) (by decide)

/-- C4: when the input transform declares a two-entry pixel extent, calling
without `shape` returns the same result as calling with that extent as the
explicit shape, in the same row/column order. -/
theorem c4_default_extent_equivalence (iw ow : Wcs) (r c : ℤ)
    (hps : iw.pixel_shape = some [r, c]) :
    calc_pixmap iw ow none = calc_pixmap iw ow (some [r, c]) := by
  have h1 : bboxOf iw none = bboxOf iw (some [r, c]) := by
    unfold bboxOf
    rw [hps]
    rfl
  unfold calc_pixmap
  rw [h1]

/-- C4 witness: `wcsA` declares extent (2, 3). -/
theorem c4_witness :
    calc_pixmap wcsA wcsNoExtent none = calc_pixmap wcsA wcsNoExtent (some [2, 3]) :=
  c4_default_extent_equivalence wcsA wcsNoExtent 2 3 rfl

/-- C5: when the two transforms represent the identical coordinate system —
the reprojection composition is the identity — the map at `(r, c)` equals
`(c, r)` in x-before-y order, exactly (hence within tolerance `1e-6`), for
every grid point of any shape, in particular for shape (3, 3). -/
theorem c5_identity_transform (iw ow : Wcs)
    (hid : ∀ p : ℚ × ℚ, iw.to_pixel (ow.to_world p) = p)
    (h w : ℤ) (r c : ℕ) (hr : r < h.toNat) (hc : c < w.toNat) :
    pixmapGet (calc_pixmap iw ow (some [h, w])) r c = some ((c : ℚ), (r : ℚ)) := by
  rw [pixmapGet_eval iw ow h w r c hr hc]
  exact congrArg some (hid _)

/-- C5 witness: identity transforms, shape (3, 3), entry (2, 1) is (1, 2). -/
theorem c5_witness :
    pixmapGet (calc_pixmap wcsA wcsA (some [3, 3])) 2 1 =
      some (((1 : ℕ) : ℚ), ((2 : ℕ) : ℚ)) :=
  c5_identity_transform wcsA wcsA (fun _ => rfl) 3 3 2 1 (by decide) (by decide)

/-- C6: a successful call returns exactly the two arrays produced by the
reprojection callable evaluated over the grid, stacked along a new trailing
axis — no per-pixel branching, no clipping, no masking, no filtering. -/
theorem c6_result_is_unmodified_stack (iw ow : Wcs) (s : Option (List ℤ))
    (bb : BBox) (hbb : bboxOf iw s = Except.ok bb) :
    calc_pixmap iw ow s =
      Except.ok (dstack
        (reproject_grids iw ow
          (grid_from_bounding_box bb).1 (grid_from_bounding_box bb).2).1
        (reproject_grids iw ow
          (grid_from_bounding_box bb).1 (grid_from_bounding_box bb).2).2) := by
  unfold calc_pixmap
  rw [hbb]

/-- The bounding box resolved for shape (2, 3). -/
def bbA : BBox :=
  (((-1 : ℚ)/2, ((3 : ℤ) : ℚ) - 1/2), ((-1 : ℚ)/2, ((2 : ℤ) : ℚ) - 1/2))

/-- C6 witness at shape (2, 3). -/
theorem c6_witness :
    calc_pixmap wcsB wcsA (some [2, 3]) =
      Except.ok (dstack
        (reproject_grids wcsB wcsA
          (grid_from_bounding_box bbA).1 (grid_from_bounding_box bbA).2).1
        (reproject_grids wcsB wcsA
          (grid_from_bounding_box bbA).1 (grid_from_bounding_box bbA).2).2) :=
  c6_result_is_unmodified_stack wcsB wcsA (some [2, 3]) bbA (bboxOf_pair wcsB 2 3)

/-- C7: with an explicit positive two-entry shape, the result does not depend
on the input transform's declared extent — transforms identical except for
their declared extents (one may declare none at all) give equal results. -/
theorem c7_shape_overrides_declared_extent (ps ps' : Option (List ℤ))
    (tw tp : ℚ × ℚ → ℚ × ℚ) (ow : Wcs) (a b : ℤ) (ha : 0 < a) (hb : 0 < b) :
    calc_pixmap ⟨ps, tw, tp⟩ ow (some [a, b]) =
      calc_pixmap ⟨ps', tw, tp⟩ ow (some [a, b]) := by
  rw [calc_pixmap_eval _ ow (some [a, b]) _ (bboxOf_pair _ a b),
    calc_pixmap_eval _ ow (some [a, b]) _ (bboxOf_pair _ a b)]
  rfl

/-- C7 witness: declared extent (9, 9) versus no declared extent. -/
theorem c7_witness :
    calc_pixmap ⟨some [9, 9], fun p => p, fun p => p⟩ wcsA (some [2, 3]) =
      calc_pixmap ⟨none, fun p => p, fun p => p⟩ wcsA (some [2, 3]) :=
  c7_shape_overrides_declared_extent (some [9, 9]) none (fun p => p) (fun p => p)
    wcsA 2 3 (by decide) (by decide)

/-- C8: the computation is a pure deterministic function — two calls with
equal input transform, output transform, and shape give equal results. -/
theorem c8_determinism (iw iw' ow ow' : Wcs) (s s' : Option (List ℤ))
    (h1 : iw = iw') (h2 : ow = ow') (h3 : s = s') :
    calc_pixmap iw ow s = calc_pixmap iw' ow' s' := by
  rw [h1, h2, h3]

/-- C8 witness: two identical concrete calls. -/
theorem c8_witness :
    calc_pixmap wcsA wcsB (some [2, 3]) = calc_pixmap wcsA wcsB (some [2, 3]) :=
  c8_determinism wcsA wcsA wcsB wcsB (some [2, 3]) (some [2, 3]) rfl rfl rfl

/-- C9: collaborator errors are surfaced verbatim and there is no partial
result: every call either fails with exactly the error the bounding-box
resolution raised, or returns a complete fully-populated map covering every
row and column of the grid. -/
theorem c9_error_propagation_no_partial (iw ow : Wcs) (s : Option (List ℤ)) :
    (∃ e, bboxOf iw s = Except.error e ∧ calc_pixmap iw ow s = Except.error e) ∨
    (∃ bb pm, bboxOf iw s = Except.ok bb ∧ calc_pixmap iw ow s = Except.ok pm ∧
      pm.length = (intsIn bb.2.1 bb.2.2).length ∧
      ∀ row ∈ pm, row.length = (intsIn bb.1.1 bb.1.2).length) := by
  cases hbb : bboxOf iw s with
  | error e =>
      left
      refine ⟨e, rfl, ?_⟩
      unfold calc_pixmap
      rw [hbb]
  | ok bb =>
      right
      refine ⟨bb, _, rfl, calc_pixmap_eval iw ow s bb hbb, ?_, ?_⟩
      · simp
      · intro row hrow
        obtain ⟨y, _, rfl⟩ := List.mem_map.mp hrow
        simp

/-- C10: a falsy shape argument (such as the empty tuple, and also `None`)
behaves identically to an omitted shape: the sampling extent is taken from
the input transform's declared pixel extent, not from the shape argument. -/
theorem c10_falsy_shape_like_none (iw ow : Wcs) (s : Option (List ℤ))
    (hs : pyTruthy s = false) :
    calc_pixmap iw ow s = calc_pixmap iw ow none := by
  have h1 : bboxOf iw s = bboxOf iw none := by
    unfold bboxOf
    rw [hs]
    rfl
  unfold calc_pixmap
  rw [h1]

/-- C10 witness: the empty tuple behaves like an omitted shape. -/
theorem c10_witness :
    calc_pixmap wcsA wcsNoExtent (some []) = calc_pixmap wcsA wcsNoExtent none :=
  c10_falsy_shape_like_none wcsA wcsNoExtent (some []) rfl

end Stcal
